import Mathlib

/-!
# Verification of the boilercv equation-forms pipeline

Shallow embedding of the equation-forms transformation pipeline of the
`boilercv` repository, centred on
`pipeline/boilercv_pipeline/correlations/dimensionless_bubble_diameter/equations.py`
(`replace`, `regex_replace`, `handle_form_whitespace`, `set_equation_forms`,
`set_param_forms`, `LATEX_PARAMS`, `SUBS`),
`pipeline/boilercv_pipeline/equations/convert_latex_to_sympy.py`
(`default`, `convert`, `update`) and
`src/boilercv/correlations/beta/__init__.py` (`get_correlations`).

Python strings are embedded as `List Char` wrapped in `String`.  Python's
`str.replace` (leftmost, non-overlapping, left-to-right) is embedded as
`pyReplace`; the three fixed regex shapes used by `set_equation_forms` are
embedded as the dedicated scanners `sub1` (for `S[0]\*\(S[1:]([^)]+)\)` with
replacement `S\g<1>`) and plain literal replacement (the other two patterns
contain no metacharacters besides escaped literals).  Recursions use fuel
equal to the scanned list's length, which is sufficient because every step
consumes at least one character.

`MorphMap`/`Forms` plumbing (`Forms.make`, `.pipe`, `.model_dump`) is the
identity on the underlying mapping and is embedded as plain function
application; a forms mapping is embedded as the total structure `FormsD`
with one field per kind (`latex`, `sympy`, `python`), absent kinds being
empty strings exactly as in the source (`set_defaults` with default `""`).
-/

namespace BoilerCV

/-- Single-character string, used to spell out find/replacement texts. -/
def chStr (c : Char) : String := String.mk [c]

/-- One scanning step sequence of Python `str.replace`: at each position, if
`find` is a prefix, emit `repl` and continue after the match, otherwise keep
one character.  Fuel decreases by one per step; each step consumes at least
one input character, so fuel equal to the input length is sufficient. -/
def replaceGo (find repl : List Char) : Nat → List Char → List Char
  | 0, l => l
  | _ + 1, [] => []
  | n + 1, c :: cs =>
    if find.isPrefixOf (c :: cs) then
      repl ++ replaceGo find repl n ((c :: cs).drop find.length)
    else
      c :: replaceGo find repl n cs

/-- Python `str.replace` semantics on character lists (leftmost,
non-overlapping).  The source never calls it with an empty `find`; that case
is the identity here. -/
def pyReplace (l find repl : List Char) : List Char :=
  if find.isEmpty then l else replaceGo find repl l.length l

/-- Python `str.replace` on strings. -/
def strReplace (s find repl : String) : String :=
  String.mk (pyReplace s.data find.data repl.data)

/-- `true` when `find` occurs as a contiguous substring, mirroring the
scanning order of `replaceGo`. -/
def hasOcc (find : List Char) : List Char → Bool
  | [] => find.isPrefixOf []
  | c :: cs => find.isPrefixOf (c :: cs) || hasOcc find cs

/-- Match condition of the regex `P([^)]+)\)` at the head of `l` (where `P`
is the literal prefix): `P` is a prefix, at least one non-`)` character
follows it, and a `)` follows those. -/
def sub1Cond (P l : List Char) : Bool :=
  P.isPrefixOf l &&
    (let rest := l.drop P.length
     !(rest.takeWhile (fun x => x ≠ ')')).isEmpty &&
       !(rest.dropWhile (fun x => x ≠ ')')).isEmpty)

/-- `re.sub` for the pattern `P([^)]+)\)` with replacement `S ++ group`:
scan left to right, replace leftmost non-overlapping matches, and continue
scanning after each match. -/
def sub1Go (P S : List Char) : Nat → List Char → List Char
  | 0, l => l
  | _ + 1, [] => []
  | n + 1, c :: cs =>
    if sub1Cond P (c :: cs) then
      let rest := (c :: cs).drop P.length
      S ++ rest.takeWhile (fun x => x ≠ ')') ++
        sub1Go P S n (rest.dropWhile (fun x => x ≠ ')')).tail
    else
      c :: sub1Go P S n cs

/-- Whether the pattern `P([^)]+)\)` matches anywhere in `l`. -/
def sub1Has (P : List Char) : List Char → Bool
  | [] => false
  | c :: cs => sub1Cond P (c :: cs) || sub1Has P cs

/-- The first-character split pattern of `set_equation_forms`:
`re.sub(rf"{sym[0]}\*\({sym[1:]}([^)]+)\)", rf"{sym}\g<1>", s)`. -/
def sub1 (sym l : List Char) : List Char :=
  sub1Go (sym.take 1 ++ ['*', '('] ++ sym.drop 1) sym l.length l

/-- Equation kinds (`Kind = Literal["latex", "sympy", "python"]`). -/
inductive Kind where
  | latex
  | sympy
  | python
deriving DecidableEq, Repr

/-- `Repl` from `equations.py`: contents of `dst` replaced with `src`, with
`find` substrings replaced with `repl`. -/
structure Repl where
  src : Kind
  dst : Kind
  find : String
  repl : String
deriving DecidableEq, Repr

/-- A forms mapping (`FormsD = dict[Kind, str]`), total with empty-string
defaults for absent kinds. -/
structure FormsD where
  latex : String
  sympy : String
  python : String
deriving DecidableEq, Repr

/-- Read the form of one kind. -/
def FormsD.get (i : FormsD) : Kind → String
  | .latex => i.latex
  | .sympy => i.sympy
  | .python => i.python

/-- Write the form of one kind. -/
def FormsD.set (i : FormsD) : Kind → String → FormsD
  | .latex, v => ⟨v, i.sympy, i.python⟩
  | .sympy, v => ⟨i.latex, v, i.python⟩
  | .python, v => ⟨i.latex, i.sympy, v⟩

/-- `replace` from `equations.py`: for each `Repl` in order, set
`i[r.dst] = i[r.src].replace(r.find, r.repl)`. -/
def replace (i : FormsD) (repls : List Repl) : FormsD :=
  repls.foldl (fun acc r => acc.set r.dst (strReplace (acc.get r.src) r.find r.repl)) i

/-- `string.whitespace` in Python order. -/
def whitespaceChars : List Char := [' ', '\t', '\n', '\r', '\x0b', '\x0c']

/-- `WHITESPACE_REPLS`: `for find in whitespace for kind in kinds`, each
replaced by a single space (find-major order, kinds inner). -/
def WHITESPACE_REPLS : List Repl :=
  (whitespaceChars.map fun f =>
    [Kind.latex, Kind.sympy, Kind.python].map fun k =>
      Repl.mk k k (chStr f) (chStr ' ')).flatten

/-- `handle_form_whitespace` from `equations.py`. -/
def handle_form_whitespace (i : FormsD) : FormsD :=
  replace i WHITESPACE_REPLS

/-- The per-string effect of `handle_form_whitespace` on one kind: the six
whitespace replacements in order, at the character-list level. -/
def norm6L (l : List Char) : List Char :=
  pyReplace
    (pyReplace
      (pyReplace
        (pyReplace (pyReplace (pyReplace l [' '] [' ']) ['\t'] [' ']) ['\n'] [' '])
        ['\r'] [' '])
      ['\x0b'] [' '])
    ['\x0c'] [' ']

/-- The per-string effect of `handle_form_whitespace` on one kind. -/
def norm6 (s : String) : String := String.mk (norm6L s.data)

/-- Single-character replacement as a character function. -/
def gws (w c : Char) : Char := if c = w then ' ' else c

/-- Composite of the six whitespace replacements, innermost (space) first. -/
def wsF (c : Char) : Char :=
  gws '\x0c' (gws '\x0b' (gws '\r' (gws '\n' (gws '\t' (gws ' ' c)))))

/-- `true` when every character of `s` is fixed by whitespace
normalization, i.e. `s` holds no whitespace besides plain spaces. -/
def wsClean (s : String) : Bool :=
  s.data.all fun c => wsF c == c

/-- The three regex repair shapes of `set_equation_forms`, instantiated at a
symbol `sym`:
`splitParen` is `rf"{sym[0]}\*\({sym[1:]}([^)]+)\)" ↦ rf"{sym}\g<1>"`,
`splitStar` is `rf"{sym[0]}\*{sym[1:]}" ↦ sym` and
`call` is `rf"{sym}\(" ↦ rf"{sym}*("`.  The latter two patterns are literal
after unescaping, so `re.sub` coincides with `str.replace` for them. -/
inductive RegexRule where
  | splitParen (sym : String)
  | splitStar (sym : String)
  | call (sym : String)
deriving DecidableEq, Repr

/-- Apply one repair rule to one string, with `re.sub` scanning semantics. -/
def subRule : RegexRule → String → String
  | .splitParen sym, s => String.mk (sub1 sym.data s.data)
  | .splitStar sym, s =>
      String.mk (pyReplace s.data (sym.data.take 1 ++ '*' :: sym.data.drop 1) sym.data)
  | .call sym, s =>
      String.mk (pyReplace s.data (sym.data ++ ['(']) (sym.data ++ ['*', '(']))

/-- `true` when the rule's pattern occurs nowhere in `l`, so applying the
rule leaves the string unchanged. -/
def ruleFixed : RegexRule → List Char → Bool
  | .splitParen sym, l => !sub1Has (sym.data.take 1 ++ ['*', '('] ++ sym.data.drop 1) l
  | .splitStar sym, l => !hasOcc (sym.data.take 1 ++ '*' :: sym.data.drop 1) l
  | .call sym, l => !hasOcc (sym.data ++ ['(']) l

/-- A regex replacement entry of `regex_replace`, with source and
destination kinds as in `FormsRepl`. -/
structure RegexRepl where
  src : Kind
  dst : Kind
  rule : RegexRule
deriving DecidableEq, Repr

/-- `regex_replace` from `equations.py`: for each entry in order, set
`i[r.dst] = re.sub(r.find, r.repl, i[r.src])`. -/
def regex_replace (i : FormsD) (repls : List RegexRepl) : FormsD :=
  repls.foldl (fun acc r => acc.set r.dst (subRule r.rule (acc.get r.src))) i

/-- Modelled from the spec: the Symbol Resolver's registered symbol tokens
(`symbolic.LOCALS`, whose defining module is not among the sources; only its
uses in `equations.py` are).  Tokens are the registered Params of
the module (`Params = Literal["Fo_0", "Ja", "Re_b0", "Pr", "beta"]` and the
spec's scenarios, which register `Re_b0` and `Fo_0`), iterated
longest-token-first as the spec's Form Synthesizer prescribes. -/
def LOCALS : List String := ["Re_b0", "Fo_0", "beta", "Ja", "Pr"]

/-- The repair rules of `set_equation_forms`: for each symbol of `LOCALS`,
the three shapes in source order (split by parenthesis, split by `*`,
missing `*` before a call). -/
def SYMPY_REGEX_RULES : List RegexRule :=
  (LOCALS.map fun sym =>
    [RegexRule.splitParen sym, RegexRule.splitStar sym, RegexRule.call sym]).flatten

/-- The regex entries of `set_equation_forms`, all reading and writing the
`sympy` kind. -/
def SYMPY_REGEX_REPLS : List RegexRepl :=
  SYMPY_REGEX_RULES.map fun r => RegexRepl.mk Kind.sympy Kind.sympy r

/-- The literal brace replacements of `set_equation_forms` applied before
the regex stage: `\x7bo\x7d ↦ 0` then `\x7bbo\x7d ↦ b0`, on the `sympy`
kind. -/
def BRACE_REPLS : List Repl :=
  [Repl.mk Kind.sympy Kind.sympy "\x7bo\x7d" "0",
   Repl.mk Kind.sympy Kind.sympy "\x7bbo\x7d" "b0"]

/-- `set_equation_forms` from `equations.py`: whitespace handling, brace
replacements, then (only when the `sympy` form is non-empty) the regex
repair stage. -/
def set_equation_forms (i : FormsD) : FormsD :=
  let i1 := replace (handle_form_whitespace i) BRACE_REPLS
  if i1.sympy = "" then i1 else regex_replace i1 SYMPY_REGEX_REPLS

/-- `set_param_forms` from `equations.py`.  Its initial
`set_defaults(i, keys=kinds, default="")` is the identity on the total
`FormsD` embedding; Python truthiness of a string is non-emptiness. -/
def set_param_forms (i : FormsD) (name : String) : FormsD :=
  let i1 := if i.sympy ≠ "" ∧ i.latex = "" then { i with latex := i.sympy } else i
  if i1.latex = "" then { i1 with latex := "\\" ++ name } else i1

/-- The escape-correction replacements of `LATEX_PARAMS`: each entry reads
from the `latex` kind and writes to the `sympy` kind
(`FormsRepl(dst="sympy", src="latex", find=k, repl=v)` for
`_\b0 ↦ _bo`, `_\o ↦ _0`, `\ ↦` nothing, in that order). -/
def PARAM_SYMPY_REPLS : List Repl :=
  [Repl.mk Kind.latex Kind.sympy "_\\b0" "_bo",
   Repl.mk Kind.latex Kind.sympy "_\\o" "_0",
   Repl.mk Kind.latex Kind.sympy "\\" ""]

/-- One entry of `LATEX_PARAMS`: defaults, `set_param_forms`, then the
escape-correction replacements. -/
def latexParam (name : String) (i : FormsD) : FormsD :=
  replace (set_param_forms i name) PARAM_SYMPY_REPLS

/-- `LATEX_PARAMS` from `equations.py`, in dict insertion order. -/
def LATEX_PARAMS : List (String × FormsD) :=
  [("bubble_initial_reynolds", latexParam "bubble_initial_reynolds" ⟨"\\Re_\\bo", "", ""⟩),
   ("bubble_jakob", latexParam "bubble_jakob" ⟨"\\Ja", "", ""⟩),
   ("bubble_fourier", latexParam "bubble_fourier" ⟨"\\Fo_\\o", "", ""⟩),
   ("beta", latexParam "beta" ⟨"\\beta", "", ""⟩),
   ("pi", latexParam "pi" ⟨"\\pi", "", ""⟩)]

/-- Python dict insertion with overwrite: an existing key keeps its
position and takes the new value, a new key is appended. -/
def dictInsert (d : List (String × String)) (k v : String) : List (String × String) :=
  if d.any fun p => p.1 == k then
    d.map fun p => if p.1 == k then (k, v) else p
  else
    d ++ [(k, v)]

/-- `SUBS` from `equations.py`:
`{arg["sympy"]: name for name, arg in LATEX_PARAMS.items()}`. -/
def SUBS : List (String × String) :=
  LATEX_PARAMS.foldl (fun d p => dictInsert d p.2.sympy p.1) []

/-- The derived `sympy` token of a registered param, by name. -/
def paramSympy (name : String) : String :=
  ((LATEX_PARAMS.lookup name).getD ⟨"", "", ""⟩).sympy

/-- Modelled from the spec: the token-derivation formula as the spec words
it — "applying a fixed map of escape corrections (e.g. `_\bo` ↦ `_bo`,
`_\o` ↦ `_0`, then strip all backslashes)" applied in sequence, each
correction operating on the previous correction's output. -/
def specCanonicalToken (latex : String) : String :=
  strReplace (strReplace (strReplace latex "_\\bo" "_bo") "_\\o" "_0") "\\" ""

/-- Modelled from the spec: the Symbol Resolver's table of registered
symbol names (`SYMBOLS` of `boilercv/correlations/__init__.py`, whose
defining module is not among the sources; only its import and use in
`beta/__init__.py` are).  Keys are the `Sym` tokens of the beta package
(`SYMBOL_EXPECTATIONS` keys). -/
def SYMBOLS : List String := ["Nu_c", "Fo_0", "Ja", "Re_b0", "Pr", "beta", "alpha", "pi"]

/-- Error vocabulary of the spec's Expression Materializer. -/
inductive MaterializeError where
  | unboundSymbol
deriving DecidableEq, Repr

/-- The `lambdify` argument selection of `get_correlations`
(`beta/__init__.py`): `args=[s for s in soln.free_symbols if s.name in SYMBOLS]`,
keeping exactly the free symbols registered in `SYMBOLS`. -/
def lambdifyFreeArgs (free : List String) : List String :=
  free.filter fun s => SYMBOLS.contains s

/-- Materialization outcome of `get_correlations` for an expression with
the given free symbols: the source has no error path, so it always returns
the compiled callable's argument list. -/
def materializeCorrelation (free : List String) :
    Except MaterializeError (List String) :=
  Except.ok (lambdifyFreeArgs free)

/-- One correlation entry as iterated by `convert_latex_to_sympy.default`:
a name plus its `latex` and `sympy` forms. -/
structure EquationExpr where
  name : String
  latex : String
  sympy : String
deriving DecidableEq, Repr

/-- `update` from `convert_latex_to_sympy.py`: returns `contents`
unchanged, ignoring the equation name and the converted form. -/
def update (contents _name _se : String) : String := contents

/-- The per-equation decision of `convert_latex_to_sympy.default`: skip
when `latex` is empty, skip when `sympy` is non-empty, otherwise convert
the LaTeX form.  `conv` stands for the external `convert` subprocess call
(including the `quote`/strip preprocessing), which is outside this
repository. -/
def convertStep (conv : String → String) (e : EquationExpr) : Option String :=
  if e.latex = "" then none
  else if e.sympy = "" then some (conv e.latex)
  else none

/-- The contents transformation of `convert_latex_to_sympy.default`: fold
over the equations, feeding each converted form to `update`. -/
def defaultPass (conv : String → String) (eqs : List EquationExpr)
    (contents : String) : String :=
  eqs.foldl
    (fun c e =>
      match convertStep conv e with
      | none => c
      | some se => update c e.name se)
    contents

/-- The repair stage of `set_equation_forms` at the string level: the
fifteen rules folded in order over the `sympy` form. -/
def applyRules (rules : List RegexRule) (s : String) : String :=
  rules.foldl (fun t r => subRule r t) s

/-- The brace replacements of `set_equation_forms` at the string level. -/
def braceFix (s : String) : String :=
  strReplace (strReplace s "\x7bo\x7d" "0") "\x7bbo\x7d" "b0"

/-- The `sympy` field of `set_equation_forms`: normalization, brace
replacements, then the repair stage when the result is non-empty. -/
def sympyRepair (s : String) : String :=
  let t := braceFix (norm6 s)
  if t = "" then t else applyRules SYMPY_REGEX_RULES t

/-- `true` when a string is left unchanged by every normalization and
repair pattern of `set_equation_forms`: whitespace-clean, free of the brace
patterns, and free of every regex rule's pattern. -/
def repairFixed (s : String) : Bool :=
  wsClean s && !hasOcc ("\x7bo\x7d".data) s.data && !hasOcc ("\x7bbo\x7d".data) s.data &&
    (SYMPY_REGEX_RULES.all fun r => ruleFixed r s.data)

/-! ## Basic lemmas about the embedded string operations -/

lemma sympy_mk (l s p : String) : (FormsD.mk l s p).sympy = s := rfl

lemma latex_mk (l s p : String) : (FormsD.mk l s p).latex = l := rfl

lemma python_mk (l s p : String) : (FormsD.mk l s p).python = p := rfl

/-- Single-character replacement by a single space is `map gws`. -/
lemma replaceGo_single (w : Char) :
    ∀ (n : Nat) (l : List Char), l.length ≤ n →
      replaceGo [w] [' '] n l = l.map (gws w) := by
  intro n
  induction n with
  | zero =>
    intro l hl
    have hnil : l = [] := List.eq_nil_of_length_eq_zero (Nat.le_zero.mp hl)
    subst hnil
    rfl
  | succ n ih =>
    intro l hl
    cases l with
    | nil => rfl
    | cons c cs =>
      have hlen : cs.length ≤ n := by
        simpa using Nat.lt_succ_iff.mp (Nat.lt_of_lt_of_le (Nat.lt_succ_self _) hl)
      by_cases hc : w = c
      · subst hc
        simp [replaceGo, List.isPrefixOf, ih cs hlen, gws]
      · simp [replaceGo, List.isPrefixOf, hc, ih cs hlen, gws, Ne.symm hc]

/-- `pyReplace` with a single-character pattern is `map gws`. -/
lemma pyReplace_single (w : Char) (l : List Char) :
    pyReplace l [w] [' '] = l.map (gws w) := by
  simp [pyReplace, List.isEmpty]
  exact replaceGo_single w l.length l (Nat.le_refl _)

/-- `norm6L` is mapping the composite whitespace normalizer. -/
lemma norm6L_eq_map (l : List Char) : norm6L l = l.map wsF := by
  unfold norm6L
  rw [pyReplace_single, pyReplace_single, pyReplace_single, pyReplace_single,
    pyReplace_single, pyReplace_single]
  induction l with
  | nil => simp only [List.map_nil]
  | cons c cs ih =>
    simp only [List.map_cons]
    exact congrArg₂ List.cons rfl ih

lemma wsF_cases (c : Char) : wsF c = ' ' ∨ wsF c = c := by
  unfold wsF gws
  split_ifs <;> simp

lemma wsF_idem (c : Char) : wsF (wsF c) = wsF c := by
  rcases wsF_cases c with h | h
  · rw [h]; rfl
  · rw [h]; exact h

lemma map_wsF_idem (l : List Char) : (l.map wsF).map wsF = l.map wsF := by
  induction l with
  | nil => rfl
  | cons c cs ih => simp [wsF_idem, ih]

lemma norm6L_idem (l : List Char) : norm6L (norm6L l) = norm6L l := by
  rw [norm6L_eq_map, norm6L_eq_map]
  exact map_wsF_idem l

lemma norm6_idem (s : String) : norm6 (norm6 s) = norm6 s := by
  unfold norm6
  exact congrArg String.mk (norm6L_idem s.data)

lemma map_eq_self_of_fix {f : Char → Char} :
    ∀ l : List Char, (∀ c ∈ l, f c = c) → l.map f = l := by
  intro l h
  induction l with
  | nil => rfl
  | cons c cs ih =>
    simp only [List.map_cons, h c (by simp)]
    exact congrArg _ (ih fun x hx => h x (by simp [hx]))

/-- A whitespace-clean string is fixed by normalization. -/
lemma norm6_of_wsClean {s : String} (h : wsClean s = true) : norm6 s = s := by
  have hfix : ∀ c ∈ s.data, wsF c = c := by
    intro c hc
    have := (List.all_eq_true.mp h) c hc
    exact beq_iff_eq.mp this
  show String.mk (norm6L s.data) = s
  rw [norm6L_eq_map, map_eq_self_of_fix s.data hfix]

/-- A pattern occurring nowhere leaves replacement scanning unchanged. -/
lemma replaceGo_no_occ (find repl : List Char) :
    ∀ (n : Nat) (l : List Char), hasOcc find l = false → replaceGo find repl n l = l := by
  intro n
  induction n with
  | zero => intro l _; rfl
  | succ n ih =>
    intro l h
    cases l with
    | nil => rfl
    | cons c cs =>
      rw [hasOcc, Bool.or_eq_false_iff] at h
      simp [replaceGo, h.1, ih cs h.2]

lemma pyReplace_no_occ {find : List Char} (repl : List Char) {l : List Char}
    (h : hasOcc find l = false) : pyReplace l find repl = l := by
  unfold pyReplace
  split
  · rfl
  · exact replaceGo_no_occ find repl l.length l h

/-- The parenthesis-split pattern occurring nowhere leaves the scan
unchanged. -/
lemma sub1Go_no_match (P S : List Char) :
    ∀ (n : Nat) (l : List Char), sub1Has P l = false → sub1Go P S n l = l := by
  intro n
  induction n with
  | zero => intro l _; rfl
  | succ n ih =>
    intro l h
    cases l with
    | nil => rfl
    | cons c cs =>
      rw [sub1Has, Bool.or_eq_false_iff] at h
      simp [sub1Go, h.1, ih cs h.2]

lemma string_mk_data (s : String) : String.mk s.data = s := rfl

/-- A rule whose pattern occurs nowhere leaves the string unchanged. -/
lemma subRule_fixed {r : RegexRule} {s : String} (h : ruleFixed r s.data = true) :
    subRule r s = s := by
  cases r with
  | splitParen sym =>
    rw [ruleFixed, Bool.not_eq_true'] at h
    show String.mk (sub1 sym.data s.data) = s
    rw [sub1, sub1Go_no_match _ _ _ _ h, string_mk_data]
  | splitStar sym =>
    rw [ruleFixed, Bool.not_eq_true'] at h
    show String.mk (pyReplace s.data _ _) = s
    rw [pyReplace_no_occ _ h, string_mk_data]
  | call sym =>
    rw [ruleFixed, Bool.not_eq_true'] at h
    show String.mk (pyReplace s.data _ _) = s
    rw [pyReplace_no_occ _ h, string_mk_data]

lemma applyRules_fixed :
    ∀ (rules : List RegexRule) (s : String),
      (∀ r ∈ rules, ruleFixed r s.data = true) → applyRules rules s = s := by
  intro rules
  induction rules with
  | nil => intro s _; rfl
  | cons r rs ih =>
    intro s h
    have h1 : subRule r s = s := subRule_fixed (h r (by simp))
    show applyRules rs (subRule r s) = s
    rw [h1]
    exact ih s fun x hx => h x (by simp [hx])

/-! ## Structure of `set_equation_forms` -/

/-- `handle_form_whitespace` normalizes every kind independently. -/
lemma hfw_eq (i : FormsD) :
    handle_form_whitespace i = ⟨norm6 i.latex, norm6 i.sympy, norm6 i.python⟩ := rfl

/-- The brace replacements touch only the `sympy` kind. -/
lemma replace_braces (i : FormsD) :
    replace i BRACE_REPLS = ⟨i.latex, braceFix i.sympy, i.python⟩ := rfl

/-- The fold of sympy-to-sympy regex entries acts on the `sympy` field
alone. -/
lemma regex_replace_sympy :
    ∀ (rules : List RegexRule) (i : FormsD),
      regex_replace i (rules.map fun r => RegexRepl.mk Kind.sympy Kind.sympy r) =
        ⟨i.latex, applyRules rules i.sympy, i.python⟩ := by
  intro rules
  induction rules with
  | nil => intro i; rfl
  | cons r rs ih =>
    intro i
    exact ih (i.set Kind.sympy (subRule r (i.get Kind.sympy)))

/-- Field decomposition of `set_equation_forms`. -/
lemma set_equation_forms_eq (i : FormsD) :
    set_equation_forms i = ⟨norm6 i.latex, sympyRepair i.sympy, norm6 i.python⟩ := by
  unfold set_equation_forms sympyRepair
  rw [hfw_eq i, replace_braces]
  simp only [sympy_mk]
  by_cases ht : braceFix (norm6 i.sympy) = ""
  · rw [if_pos ht, if_pos ht]
  · rw [if_neg ht, if_neg ht]
    exact regex_replace_sympy SYMPY_REGEX_RULES _

/-- A string satisfying `repairFixed` is a fixed point of the whole
`sympy`-side pipeline. -/
lemma sympyRepair_fixed {t : String} (h : repairFixed t = true) : sympyRepair t = t := by
  rw [repairFixed, Bool.and_eq_true, Bool.and_eq_true, Bool.and_eq_true] at h
  obtain ⟨⟨⟨hws, h1⟩, h2⟩, hr⟩ := h
  rw [Bool.not_eq_true'] at h1 h2
  have hn : norm6 t = t := norm6_of_wsClean hws
  have hb : braceFix t = t := by
    unfold braceFix
    have e1 : strReplace t "\x7bo\x7d" "0" = t := by
      show String.mk (pyReplace t.data _ _) = t
      rw [pyReplace_no_occ _ h1, string_mk_data]
    rw [e1]
    show String.mk (pyReplace t.data _ _) = t
    rw [pyReplace_no_occ _ h2, string_mk_data]
  unfold sympyRepair
  rw [hn, hb]
  by_cases ht : t = ""
  · rw [if_pos ht]
  · rw [if_neg ht]
    exact applyRules_fixed _ _ fun r hrr => List.all_eq_true.mp hr r hrr

/-! ## Claims -/

/-- Claim C1, counterexample: the claim states that the three-pass repair
turns the raw form `Re*(b0**0.5)` into `Re_b0**0.5`; in fact the
first-character split rule for `Re_b0` matches only `R*(e_b0<suffix>)`, so
`set_equation_forms` returns `Re*(b0**0.5)` unchanged and not
`Re_b0**0.5`. -/
theorem c1_missplit_counterexample :
    (set_equation_forms ⟨"", "Re*(b0**0.5)", ""⟩).sympy = "Re*(b0**0.5)" ∧
      (set_equation_forms ⟨"", "Re*(b0**0.5)", ""⟩).sympy ≠ "Re_b0**0.5" := by
  constructor
  · rfl
  · decide

/-- Claim C1, amended: the mis-split raw form repaired by
`set_equation_forms` is split after the registered symbol's first
character, `R*(e_b0**0.5)`, and the repair stitches it back into
`Re_b0**0.5`. -/
theorem c1_missplit_repair :
    (set_equation_forms ⟨"", "R*(e_b0**0.5)", ""⟩).sympy = "Re_b0**0.5" := by
  rfl

/-- Claim C2, counterexample: the claim states that the canonical sympy
token results from applying the escape corrections in sequence, giving
`Fo_0` for `bubble_fourier`; in fact each correction of `LATEX_PARAMS`
reads from the unresolved `latex` form and overwrites `sympy`, so only the
final backslash strip survives and the token is `Fo_o`. -/
theorem c2_token_counterexample :
    paramSympy "bubble_fourier" = "Fo_o" ∧
      specCanonicalToken "\\Fo_\\o" = "Fo_0" ∧
      paramSympy "bubble_fourier" ≠ specCanonicalToken "\\Fo_\\o" := by
  refine ⟨rfl, rfl, ?_⟩
  decide

/-- Claim C2, amended: for every registered Param, the canonical sympy
token equals the LaTeX form with all backslashes stripped (each escape
correction reads from `latex` and overwrites `sympy`, so only the last
replacement takes effect); in particular `bubble_fourier` with LaTeX form
`\Fo_\o` has canonical sympy token `Fo_o`. -/
theorem c2_token_derivation :
    (LATEX_PARAMS.all fun p => p.2.sympy == strReplace p.2.latex "\\" "") = true ∧
      paramSympy "bubble_fourier" = "Fo_o" := by
  decide

/-- Claim C3: the claim states that the LaTeX-to-SymPy conversion pass
writes the synthesized forms back into the module contents; in fact
`update` returns its `contents` argument unchanged, so `default` leaves the
contents equal to the original for every converter, equation list and
starting contents, and the rewritten file holds the original text. -/
theorem c3_update_discards_conversion :
    ∀ (conv : String → String) (eqs : List EquationExpr) (contents : String),
      defaultPass conv eqs contents = contents := by
  intro conv eqs
  induction eqs with
  | nil => intro contents; rfl
  | cons e rest ih =>
    intro contents
    have hstep :
        (match convertStep conv e with
          | none => contents
          | some se => update contents e.name se) = contents := by
      cases convertStep conv e <;> rfl
    show defaultPass conv rest
        (match convertStep conv e with
          | none => contents
          | some se => update contents e.name se) = contents
    rw [hstep]
    exact ih contents

/-- Claim C4, counterexample: the claim states that materializing an
expression containing the unregistered free symbol `Xyz` raises
`UnboundSymbolError`; in fact `get_correlations` has no error path — it
filters the free symbols to the registered ones, so materialization
succeeds and returns a callable whose argument list silently drops
`Xyz`. -/
theorem c4_unbound_counterexample :
    materializeCorrelation ["Xyz", "Fo_0"] = Except.ok ["Fo_0"] := by
  rfl

/-- Claim C4, amended: materializing an expression whose free symbols
contain the unregistered `Xyz` raises nothing; `get_correlations` builds
the callable with its argument list filtered to registered symbols, so the
unknown symbol is silently dropped. -/
theorem c4_unbound_dropped :
    ∀ free : List String, "Xyz" ∈ free →
      ∃ args, materializeCorrelation free = Except.ok args ∧ "Xyz" ∉ args := by
  intro free _
  refine ⟨lambdifyFreeArgs free, rfl, ?_⟩
  intro hmem
  have h := (List.mem_filter.mp hmem).2
  exact absurd h (by decide)

/-- Witness for the amended claim C4 at the free-symbol list
`["Xyz", "Fo_0"]`. -/
theorem c4_unbound_dropped_witness :
    ("Xyz" : String) ∈ ["Xyz", "Fo_0"] ∧
      ∃ args, materializeCorrelation ["Xyz", "Fo_0"] = Except.ok args ∧
        "Xyz" ∉ args :=
  ⟨by decide, c4_unbound_dropped ["Xyz", "Fo_0"] (by decide)⟩

/-- Claim C5: for the raw form `Fo_0(2)` with `Fo_0` a registered token,
`set_equation_forms` inserts the missing multiplication operator, and the
full rule pass (including every later registered token's rules) returns
exactly `Fo_0*(2)`. -/
theorem c5_call_repair :
    (set_equation_forms ⟨"", "Fo_0(2)", ""⟩).sympy = "Fo_0*(2)" := by
  rfl

/-- Claim C6, counterexample: the claim states that a forms mapping with a
non-empty `sympy` form has that form returned exactly as given; in fact
`set_equation_forms` still normalizes whitespace (a tab becomes a space)
and still runs the call-repair rule (`Fo_0(2)` becomes `Fo_0*(2)`) on a
non-empty `sympy` form. -/
theorem c6_guard_counterexample :
    (set_equation_forms ⟨"", "1\t+ 2", ""⟩).sympy ≠ "1\t+ 2" ∧
      (set_equation_forms ⟨"", "Fo_0(2)", ""⟩).sympy ≠ "Fo_0(2)" := by
  decide

/-- Claim C6, amended: the conversion pass of `convert_latex_to_sympy`
never synthesizes a new `sympy` form for a correlation whose `sympy` form
is already non-empty (the per-equation step converts nothing), so the
stored symbolic form is never replaced by a synthesized one; however
`set_equation_forms` does not return a non-empty `sympy` form exactly as
given, since whitespace normalization and the regex repairs still apply to
it. -/
theorem c6_guard_skips_synthesis :
    ∀ (conv : String → String) (e : EquationExpr), e.sympy ≠ "" →
      convertStep conv e = none := by
  intro conv e h
  unfold convertStep
  by_cases hl : e.latex = ""
  · rw [if_pos hl]
  · rw [if_neg hl, if_neg h]

/-- Witness for the amended claim C6 at a concrete equation with a
non-empty `sympy` form. -/
theorem c6_guard_skips_synthesis_witness :
    (EquationExpr.mk "tang_et_al_2016" "1 - x" "1 - x").sympy ≠ "" ∧
      convertStep id (EquationExpr.mk "tang_et_al_2016" "1 - x" "1 - x") = none :=
  ⟨by decide, c6_guard_skips_synthesis id _ (by decide)⟩

/-- Claim C7, counterexample: the claim states that `set_equation_forms`
is a fixed point on its own output for every forms mapping; in fact a
nested mis-split such as `R*(e_b0R*(e_b0x))` is repaired to
`Re_b0R*(e_b0x)` by one application, and a second application repairs the
re-exposed inner pattern to `Re_b0Re_b0x`, so the second pass changes the
`sympy` form. -/
theorem c7_fixed_point_counterexample :
    (set_equation_forms (set_equation_forms ⟨"", "R*(e_b0R*(e_b0x))", ""⟩)).sympy ≠
      (set_equation_forms ⟨"", "R*(e_b0R*(e_b0x))", ""⟩).sympy := by
  decide

/-- Claim C7, amended: applying `set_equation_forms` a second time is a
no-op for every forms mapping whose once-repaired `sympy` form contains no
remaining occurrence of any normalization or repair pattern (whitespace
other than spaces, brace patterns, or any registered token's three rule
patterns); in general the repair is not a fixed point, since a rule's own
replacement can re-expose that rule's pattern. -/
theorem c7_fixed_point_on_repaired (i : FormsD)
    (h : repairFixed (set_equation_forms i).sympy = true) :
    set_equation_forms (set_equation_forms i) = set_equation_forms i := by
  rw [set_equation_forms_eq i] at h ⊢
  rw [set_equation_forms_eq ⟨norm6 i.latex, sympyRepair i.sympy, norm6 i.python⟩]
  simp only [latex_mk, sympy_mk, python_mk] at h ⊢
  rw [norm6_idem, norm6_idem, sympyRepair_fixed h]

/-- Witness for the amended claim C7 at the forms mapping with `sympy`
form `Ja`. -/
theorem c7_fixed_point_on_repaired_witness :
    repairFixed (set_equation_forms ⟨"", "Ja", ""⟩).sympy = true ∧
      set_equation_forms (set_equation_forms ⟨"", "Ja", ""⟩) =
        set_equation_forms ⟨"", "Ja", ""⟩ :=
  ⟨by decide, c7_fixed_point_on_repaired ⟨"", "Ja", ""⟩ (by decide)⟩

/-- Claim C8: whitespace normalization is idempotent — normalizing an
already-normalized forms mapping changes nothing. -/
theorem c8_normalize_idem :
    ∀ i : FormsD,
      handle_form_whitespace (handle_form_whitespace i) = handle_form_whitespace i := by
  intro i
  rw [hfw_eq i, hfw_eq]
  simp only [latex_mk, sympy_mk, python_mk]
  rw [norm6_idem, norm6_idem, norm6_idem]

/-- Claim C9: token mapping round-trips — for every registered Param entry
of `LATEX_PARAMS`, looking its derived sympy token up in `SUBS` returns
the Param's name. -/
theorem c9_roundtrip :
    ∀ p ∈ LATEX_PARAMS, SUBS.lookup p.2.sympy = some p.1 := by
  decide

/-- Witness for claim C9 at the `bubble_fourier` entry. -/
theorem c9_roundtrip_witness :
    ("bubble_fourier", latexParam "bubble_fourier" ⟨"\\Fo_\\o", "", ""⟩) ∈
        LATEX_PARAMS ∧
      SUBS.lookup (latexParam "bubble_fourier" ⟨"\\Fo_\\o", "", ""⟩).sympy =
        some "bubble_fourier" :=
  ⟨by decide,
    c9_roundtrip ("bubble_fourier", latexParam "bubble_fourier" ⟨"\\Fo_\\o", "", ""⟩)
      (by decide)⟩

/-- Claim C10: `set_equation_forms` only rewrites the `sympy` kind — when
the `latex` and `python` forms contain no whitespace besides plain spaces,
both are returned exactly as given. -/
theorem c10_only_sympy_rewritten (i : FormsD)
    (h1 : wsClean i.latex = true) (h2 : wsClean i.python = true) :
    (set_equation_forms i).latex = i.latex ∧
      (set_equation_forms i).python = i.python := by
  rw [set_equation_forms_eq]
  simp only [latex_mk, python_mk]
  exact ⟨norm6_of_wsClean h1, norm6_of_wsClean h2⟩

/-- Witness for claim C10 at a forms mapping with space-only whitespace in
its `latex` and `python` forms. -/
theorem c10_only_sympy_rewritten_witness :
    wsClean (FormsD.mk "\\Re_\\bo" "Re_b0(x)" "1 - x").latex = true ∧
      wsClean (FormsD.mk "\\Re_\\bo" "Re_b0(x)" "1 - x").python = true ∧
      ((set_equation_forms ⟨"\\Re_\\bo", "Re_b0(x)", "1 - x"⟩).latex = "\\Re_\\bo" ∧
        (set_equation_forms ⟨"\\Re_\\bo", "Re_b0(x)", "1 - x"⟩).python = "1 - x") :=
  ⟨by decide, by decide,
    c10_only_sympy_rewritten ⟨"\\Re_\\bo", "Re_b0(x)", "1 - x"⟩ (by decide) (by decide)⟩

end BoilerCV
